import Mathlib

/-!
# Verification of the stock-chart view component

A shallow embedding of `src/src/App.tsx`: the `App` React component that
fetches paginated historical stock data and feeds it to a candlestick
chart. State hooks become fields of `AppState`; the `fetchData` async
function is split at its `await` suspension point into `fetchDataStart`
(the part before the network call: `setLoading(true)` plus the request
that is issued) and `fetchDataResolve` (the `then`/`catch` continuation
applied to the network outcome). Event handlers (`handleSymbolChange`,
`handleSubmit`, `loadMore`) and the JSX render are translated directly.
A small transition system (`SysState`, `Step`, `Reachable`) tracks the
view state together with the multiset of in-flight requests, so that
invariants over all reachable states can be proved.
-/

set_option autoImplicit false

namespace StockApp

/-- One stock record, the `StockData` interface of `App.tsx`:
timestamp `t` in milliseconds, open/high/low/close prices, volume. -/
structure StockData where
  t : Nat
  o : Rat
  h : Rat
  l : Rat
  c : Rat
  v : Rat
deriving Repr, DecidableEq

/-- The component's view state: the six `useState` hooks of `App`. -/
structure AppState where
  data : List StockData
  loading : Bool
  error : Option String
  symbol : String
  page : Nat
  hasMore : Bool
deriving Repr, DecidableEq

/-- The initial view state: the `useState` initial values
(`[]`, `true`, `null`, `'AAPL'`, `1`, `true`). -/
def initialAppState : AppState :=
  { data := [], loading := true, error := none, symbol := "AAPL",
    page := 1, hasMore := true }

/-- One HTTP request issued by `fetchData`:
`API.get('stockApi', '/stock', { queryStringParameters: { symbol, page } })`
together with the `append` mode the continuation will use. -/
structure FetchRequest where
  symbol : String
  page : Nat
  append : Bool
deriving Repr, DecidableEq

/-- A successful response body: `{ data: StockData[], hasMore: boolean }`. -/
structure FetchResponse where
  data : List StockData
  hasMore : Bool
deriving Repr, DecidableEq

/-- The outcome of the awaited network call: a response, or a thrown
error (the `err` value, whose content the `catch` branch ignores). -/
abbrev FetchResult := Except String FetchResponse

/-- The first half of `fetchData pageNum append`, up to the `await`:
`setLoading(true)` and the request that is issued. The request captures
the current `symbol` (the closure reads the `symbol` state variable). -/
def fetchDataStart (s : AppState) (pageNum : Nat) (append : Bool) :
    AppState × FetchRequest :=
  ({ s with loading := true },
   { symbol := s.symbol, page := pageNum, append := append })

/-- The continuation of `fetchData pageNum append` after the `await`.
On success: `setData` (append or replace), `setHasMore(response.hasMore)`,
`setPage(pageNum)`, `setLoading(false)`. On a thrown error:
`setError('Failed to fetch data')`, `setLoading(false)`. -/
def fetchDataResolve (s : AppState) (pageNum : Nat) (append : Bool)
    (result : FetchResult) : AppState :=
  match result with
  | Except.ok resp =>
      { s with
        data := if append then s.data ++ resp.data else resp.data,
        hasMore := resp.hasMore,
        page := pageNum,
        loading := false }
  | Except.error _ =>
      { s with error := some "Failed to fetch data", loading := false }

/-- JavaScript's `String.prototype.toUpperCase`, modelled as the
character-wise uppercasing (which agrees with it on ASCII tickers). -/
def jsToUpperCase (s : String) : String :=
  ⟨s.data.map Char.toUpper⟩

/-- `handleSymbolChange`: stores `event.target.value.toUpperCase()`. -/
def handleSymbolChange (s : AppState) (input : String) : AppState :=
  { s with symbol := jsToUpperCase input }

/-- `handleSubmit`: `event.preventDefault(); fetchData(1)` — the default
`append = false` applies. Returns the new state and the one request. -/
def handleSubmit (s : AppState) : AppState × FetchRequest :=
  fetchDataStart s 1 false

/-- `loadMore`: `if (hasMore) { fetchData(page + 1, true) }`. Returns the
new state and the request, if any. Note the guard tests only `hasMore`. -/
def loadMore (s : AppState) : AppState × Option FetchRequest :=
  if s.hasMore then
    let r := fetchDataStart s (s.page + 1) true
    (r.1, some r.2)
  else
    (s, none)

/-- The render guard of the Load More button:
`{hasMore && !loading && (<button onClick={loadMore}>...)}`. -/
def showLoadMoreButton (s : AppState) : Bool :=
  s.hasMore && !s.loading

/-- One point handed to `candlestickSeries.setData`:
`{time, open, high, low, close}` — no volume field exists. -/
structure ChartPoint where
  time : Rat
  «open» : Rat
  high : Rat
  low : Rat
  close : Rat
deriving Repr, DecidableEq

/-- The per-record chart transform,
`d => ({ time: d.t / 1000, open: d.o, high: d.h, low: d.l, close: d.c })`. -/
def toChartPoint (d : StockData) : ChartPoint :=
  { time := (d.t : Rat) / 1000,
    «open» := d.o, high := d.h, low := d.l, close := d.c }

/-- The full dataset pushed to the chart: `data.map(d => ...)`. -/
def chartData (data : List StockData) : List ChartPoint :=
  data.map toChartPoint

/-- What the component renders: on `error` the early return
`<div>{error}</div>`, otherwise the form, chart container, loading
indicator and (conditionally) the Load More button. -/
inductive Render where
  | errorView (msg : String)
  | normalView (symbol : String) (chart : List ChartPoint)
      (showLoading : Bool) (showLoadMore : Bool)
deriving Repr, DecidableEq

/-- The component's render function, translated from the JSX. -/
def render (s : AppState) : Render :=
  match s.error with
  | some msg => Render.errorView msg
  | none =>
      Render.normalView s.symbol (chartData s.data) s.loading
        (showLoadMoreButton s)

/-- The view state together with the in-flight requests (the awaited
calls whose continuations have not yet run). -/
structure SysState where
  view : AppState
  pending : List FetchRequest
deriving Repr, DecidableEq

/-- The state at component mount, before any effect has run. -/
def initState : SysState :=
  { view := initialAppState, pending := [] }

/-- Issue a fetch: run `fetchDataStart` and record the request. -/
def startFetchSys (s : SysState) (pageNum : Nat) (append : Bool) : SysState :=
  let r := fetchDataStart s.view pageNum append
  { view := r.1, pending := r.2 :: s.pending }

/-- Form submission at the system level. -/
def submitSys (s : SysState) : SysState :=
  let r := handleSubmit s.view
  { view := r.1, pending := r.2 :: s.pending }

/-- A Load More invocation at the system level. -/
def loadMoreSys (s : SysState) : SysState :=
  let r := loadMore s.view
  { view := r.1,
    pending :=
      match r.2 with
      | some req => req :: s.pending
      | none => s.pending }

/-- An in-flight request resolving with `result`: its continuation runs
and the request leaves the in-flight set. -/
def resolveSys (s : SysState) (r : FetchRequest) (result : FetchResult) :
    SysState :=
  { view := fetchDataResolve s.view r.page r.append result,
    pending := s.pending.erase r }

/-- One step of the component. User events (typing, submitting, clicking
Load More) require the normal UI to be rendered (`error = none`; the
Load More click additionally requires its button's render guard). The
`useEffect` on `[symbol]` issues `fetchData(1)` at mount and after a
symbol change. Any in-flight request may resolve at any time. -/
inductive Step : SysState → SysState → Prop
  | symbolChange (s : SysState) (input : String)
      (hg : s.view.error = none) :
      Step s { view := handleSymbolChange s.view input, pending := s.pending }
  | symbolEffect (s : SysState) (hg : s.view.error = none) :
      Step s (startFetchSys s 1 false)
  | submit (s : SysState) (hg : s.view.error = none) :
      Step s (submitSys s)
  | loadMoreClick (s : SysState) (hg : s.view.error = none)
      (hbtn : showLoadMoreButton s.view = true) :
      Step s (loadMoreSys s)
  | resolveOk (s : SysState) (r : FetchRequest) (resp : FetchResponse)
      (hr : r ∈ s.pending) :
      Step s (resolveSys s r (Except.ok resp))
  | resolveErr (s : SysState) (r : FetchRequest) (e : String)
      (hr : r ∈ s.pending) :
      Step s (resolveSys s r (Except.error e))

/-- The states the component can reach from mount. -/
inductive Reachable : SysState → Prop
  | init : Reachable initState
  | step {s s' : SysState} : Reachable s → Step s s' → Reachable s'

/-- The invariant carried through the reachability induction: the view's
page and every in-flight request's page are positive. -/
def pageInv (s : SysState) : Prop :=
  1 ≤ s.view.page ∧ ∀ r ∈ s.pending, 1 ≤ r.page

theorem pageInv_step {s s' : SysState} (hs : pageInv s) (hst : Step s s') :
    pageInv s' := by
  obtain ⟨hpage, hpend⟩ := hs
  cases hst with
  | symbolChange input hg =>
      exact ⟨hpage, hpend⟩
  | symbolEffect hg =>
      refine ⟨hpage, ?_⟩
      intro r hr
      rcases List.mem_cons.mp hr with h | h
      · subst h; exact Nat.le_refl 1
      · exact hpend r h
  | submit hg =>
      refine ⟨hpage, ?_⟩
      intro r hr
      rcases List.mem_cons.mp hr with h | h
      · subst h; exact Nat.le_refl 1
      · exact hpend r h
  | loadMoreClick hg hbtn =>
      by_cases hm : s.view.hasMore = true
      · refine ⟨?_, ?_⟩
        · simpa [loadMoreSys, loadMore, fetchDataStart, hm] using hpage
        · intro r hr
          simp [loadMoreSys, loadMore, fetchDataStart, hm] at hr
          rcases hr with h | h
          · subst h; exact Nat.le_add_left 1 _
          · exact hpend r h
      · refine ⟨?_, ?_⟩
        · simpa [loadMoreSys, loadMore, hm] using hpage
        · intro r hr
          simp [loadMoreSys, loadMore, hm] at hr
          exact hpend r hr
  | resolveOk r resp hr =>
      refine ⟨?_, ?_⟩
      · simpa [resolveSys, fetchDataResolve] using hpend r hr
      · intro q hq
        exact hpend q (List.mem_of_mem_erase hq)
  | resolveErr r e hr =>
      refine ⟨?_, ?_⟩
      · simpa [resolveSys, fetchDataResolve] using hpage
      · intro q hq
        exact hpend q (List.mem_of_mem_erase hq)

/-- A view state that is mid-fetch (loading) with more pages available. -/
def loadingState : AppState :=
  { data := [], loading := true, error := none, symbol := "AAPL",
    page := 2, hasMore := true }

/-- A view state with no further pages available. -/
def exhaustedState : AppState :=
  { data := [], loading := false, error := none, symbol := "AAPL",
    page := 2, hasMore := false }

/-- C1 counterexample: in a state with `loading = true` and
`hasMore = true`, calling `loadMore()` does issue a fetch — the function
tests only `hasMore`, so it is not a no-op when `loading` is true. -/
theorem c1_loadMore_counterexample :
    loadingState.loading = true ∧
    (loadMore loadingState).2 =
      some { symbol := "AAPL", page := 3, append := true } := by
  constructor
  · rfl
  · rfl

/-- C1 (amended): `loadMore()` is a no-op exactly when `hasMore` is
false; when `hasMore` is true it issues exactly one fetch for `page + 1`
with `append = true`, regardless of `loading`. The `loading` half of the
guard lives only in the Load More button's render condition
`hasMore && !loading`, so UI-triggered calls occur only while not
loading. -/
theorem c1_loadMore_guard (s : AppState) :
    (s.hasMore = false → loadMore s = (s, none)) ∧
    (s.hasMore = true →
      loadMore s =
        ({ s with loading := true },
         some { symbol := s.symbol, page := s.page + 1, append := true })) ∧
    (showLoadMoreButton s = true → s.hasMore = true ∧ s.loading = false) := by
  refine ⟨?_, ?_, ?_⟩
  · intro h
    simp [loadMore, h]
  · intro h
    simp [loadMore, fetchDataStart, h]
  · intro h
    simp [showLoadMoreButton] at h
    exact ⟨h.1, h.2⟩

/-- C1 witness: the amended guard evaluated at two concrete states. -/
theorem c1_loadMore_guard_witness :
    loadMore loadingState =
      ({ loadingState with loading := true },
       some { symbol := "AAPL", page := 3, append := true }) ∧
    loadMore exhaustedState = (exhaustedState, none) :=
  ⟨(c1_loadMore_guard loadingState).2.1 rfl,
   (c1_loadMore_guard exhaustedState).1 rfl⟩

/-- C2: a successful load-more fetch (`append = true`) leaves the
resulting records equal to the old records followed by the newly
returned records, in order. -/
theorem c2_append_concatenates (s : AppState) (pageNum : Nat)
    (resp : FetchResponse) :
    (fetchDataResolve s pageNum true (Except.ok resp)).data =
      s.data ++ resp.data :=
  rfl

/-- C3: after any successful fetch, `loading` is false, `page` equals the
requested page number, and `hasMore` is the response's flag. -/
theorem c3_success_postcondition (s : AppState) (pageNum : Nat)
    (append : Bool) (resp : FetchResponse) :
    (fetchDataResolve s pageNum append (Except.ok resp)).loading = false ∧
    (fetchDataResolve s pageNum append (Except.ok resp)).page = pageNum ∧
    (fetchDataResolve s pageNum append (Except.ok resp)).hasMore =
      resp.hasMore :=
  ⟨rfl, rfl, rfl⟩

/-- C4: any failed fetch sets `error` to exactly "Failed to fetch data"
and `loading` to false; the result does not depend on the thrown error
(one indiscriminate error kind), and no new request is issued (the
in-flight set only shrinks — no retry). -/
theorem c4_failure_postcondition (s : SysState) (r : FetchRequest)
    (e : String) :
    (resolveSys s r (Except.error e)).view.error =
      some "Failed to fetch data" ∧
    (resolveSys s r (Except.error e)).view.loading = false ∧
    (resolveSys s r (Except.error e)).pending = s.pending.erase r ∧
    ∀ e2 : String,
      resolveSys s r (Except.error e) = resolveSys s r (Except.error e2) :=
  ⟨rfl, rfl, rfl, fun _ => rfl⟩

/-- C5: submitting the form issues exactly one fetch, for page 1 of the
current symbol with `append = false`, and a successful `append = false`
fetch replaces the records wholesale with the returned page. -/
theorem c5_submit_replaces (sys : SysState) (s2 : AppState)
    (resp : FetchResponse) :
    (handleSubmit sys.view).2 =
      { symbol := sys.view.symbol, page := 1, append := false } ∧
    (submitSys sys).pending =
      { symbol := sys.view.symbol, page := 1, append := false }
        :: sys.pending ∧
    (fetchDataResolve s2 1 false (Except.ok resp)).data = resp.data :=
  ⟨rfl, rfl, rfl⟩

/-- C6: the symbol-change handler stores the uppercase form of the input
(e.g. "aapl" becomes "AAPL"), and any fetch started afterwards queries
that uppercased symbol. -/
theorem c6_symbol_uppercased (s : AppState) (input : String)
    (pageNum : Nat) (append : Bool) :
    (handleSymbolChange s input).symbol = jsToUpperCase input ∧
    (fetchDataStart (handleSymbolChange s input) pageNum append).2.symbol =
      jsToUpperCase input ∧
    (handleSymbolChange s "aapl").symbol = "AAPL" :=
  ⟨rfl, rfl, rfl⟩

/-- C7: the chart transform maps a record to
`{time := t / 1000, open := o, high := h, low := l, close := c}`; the
output has no volume component (records differing only in `v` map to the
same point), and `t = 1700000000000` yields `time = 1700000000`. -/
theorem c7_chart_transform (d : StockData) :
    (toChartPoint d).time = (d.t : Rat) / 1000 ∧
    (toChartPoint d).«open» = d.o ∧
    (toChartPoint d).high = d.h ∧
    (toChartPoint d).low = d.l ∧
    (toChartPoint d).close = d.c ∧
    (∀ v2 : Rat, toChartPoint { d with v := v2 } = toChartPoint d) ∧
    (d.t = 1700000000000 → (toChartPoint d).time = 1700000000) := by
  refine ⟨rfl, rfl, rfl, rfl, rfl, fun _ => rfl, ?_⟩
  intro h
  simp [toChartPoint, h]
  norm_num

/-- A concrete bar at timestamp 1700000000000 ms. -/
def novBar : StockData :=
  { t := 1700000000000, o := 10, h := 20, l := 5, c := 15, v := 100 }

/-- C7 witness: the transform at the concrete timestamp. -/
theorem c7_chart_transform_witness :
    novBar.t = 1700000000000 ∧ (toChartPoint novBar).time = 1700000000 :=
  ⟨rfl, (c7_chart_transform novBar).2.2.2.2.2.2 rfl⟩

/-- C8: no operation of the component resets `error`: symbol change,
submit, load more, and the start of a fetch leave it unchanged; a
successful resolution leaves it unchanged; a failed resolution leaves it
set. While `error` is set, rendering produces only the error view. -/
theorem c8_error_terminal (s : AppState) :
    (∀ input, (handleSymbolChange s input).error = s.error) ∧
    (handleSubmit s).1.error = s.error ∧
    (loadMore s).1.error = s.error ∧
    (∀ pageNum append, (fetchDataStart s pageNum append).1.error = s.error) ∧
    (∀ pageNum append resp,
      (fetchDataResolve s pageNum append (Except.ok resp)).error =
        s.error) ∧
    (∀ pageNum append e,
      (fetchDataResolve s pageNum append
        (Except.error e)).error.isSome = true) ∧
    (∀ m, s.error = some m → render s = Render.errorView m) := by
  refine ⟨fun _ => rfl, rfl, ?_, fun _ _ => rfl, fun _ _ _ => rfl,
    fun _ _ _ => rfl, ?_⟩
  · by_cases h : s.hasMore = true
    · simp [loadMore, fetchDataStart, h]
    · simp [loadMore, h]
  · intro m hm
    simp [render, hm]

/-- A view state after a failed fetch. -/
def erroredState : AppState :=
  { data := [], loading := false, error := some "Failed to fetch data",
    symbol := "AAPL", page := 1, hasMore := true }

/-- C8 witness: at a concrete errored state, a symbol change leaves the
error set and the render is the bare error message. -/
theorem c8_error_terminal_witness :
    (handleSymbolChange erroredState "msft").error =
      some "Failed to fetch data" ∧
    render erroredState = Render.errorView "Failed to fetch data" :=
  ⟨(c8_error_terminal erroredState).1 "msft",
   (c8_error_terminal erroredState).2.2.2.2.2.2 "Failed to fetch data" rfl⟩

/-- C9: a failed fetch changes only `error` and `loading`: the records,
page, pagination flag and symbol are exactly as before, for both append
modes. -/
theorem c9_failure_frame (s : AppState) (pageNum : Nat) (append : Bool)
    (e : String) :
    (fetchDataResolve s pageNum append (Except.error e)).data = s.data ∧
    (fetchDataResolve s pageNum append (Except.error e)).page = s.page ∧
    (fetchDataResolve s pageNum append (Except.error e)).hasMore =
      s.hasMore ∧
    (fetchDataResolve s pageNum append (Except.error e)).symbol =
      s.symbol :=
  ⟨rfl, rfl, rfl, rfl⟩

/-- C10: in every reachable state, `page` is a positive integer, and so
is the page number of every in-flight request (so every value `setPage`
can commit is positive): it starts at 1, fresh fetches request page 1,
and load more requests `page + 1`. -/
theorem c10_page_positive {s : SysState} (h : Reachable s) :
    1 ≤ s.view.page ∧ ∀ r ∈ s.pending, 1 ≤ r.page := by
  have hinv : pageInv s := by
    induction h with
    | init => exact ⟨Nat.le_refl 1, by simp [initState]⟩
    | step hr hst ih => exact pageInv_step ih hst
  exact hinv

/-- C10 witness: the invariant at a concrete reachable state, one mount
effect after the initial state. -/
theorem c10_page_positive_witness :
    1 ≤ (startFetchSys initState 1 false).view.page ∧
    ∀ r ∈ (startFetchSys initState 1 false).pending, 1 ≤ r.page :=
  c10_page_positive
    (Reachable.step Reachable.init (Step.symbolEffect initState rfl))

end StockApp
